import Mathlib

/-!
Shallow embedding of the document-ingestion / hybrid-retrieval / role-routing
system (Python sources under `src/`), together with proofs about the embedded
operations.  Similarity scores, thresholds and embedding coordinates are
modelled as rationals; external services (vector store, embedding model,
language model, langchain text splitter) appear as explicit function or data
parameters of the embedded operations, exactly at the call sites where the
Python code consumes them.
-/

namespace RagSpec

/-- Similarity scores and embedding coordinates are modelled as rationals. -/
abbrev Score := ℚ

/-! ### Role router — `src/stakeholder/manager.py` -/

/-- A role match as produced by `RoleManager.route_document`
(`src/stakeholder/manager.py`, `RoleMatch` model). -/
structure RoleMatch where
  role_id : ℕ
  role_name : String
  department : String
  responsibilities : String
  priority : ℕ
  similarity : Score
  confidence : String
deriving DecidableEq

/-- `RoleManager._calculate_confidence` (`src/stakeholder/manager.py` lines 311–318):
`high` for `similarity >= 0.8`, `medium` for `similarity >= 0.65`, else `low`. -/
def calculate_confidence (similarity : Score) : String :=
  if similarity ≥ 8/10 then "high"
  else if similarity ≥ 65/100 then "medium"
  else "low"

/-- The row returned by the `get_manager_role` store procedure, as read by
`RoleManager._get_manager_role`. -/
structure ManagerRoleData where
  role_id : ℕ
  role_name : String
  department : String
  responsibilities : String
  priority : ℕ
deriving DecidableEq

/-- `RoleManager._get_manager_role` (`src/stakeholder/manager.py` lines 289–309):
builds the fallback `RoleMatch` with fixed similarity `0.5` and confidence
`"medium"` from the manager-role query result, `none` when the store returns
no row. -/
def get_manager_role (managerData : Option ManagerRoleData) : Option RoleMatch :=
  managerData.map fun m =>
    { role_id := m.role_id
      role_name := m.role_name
      department := m.department
      responsibilities := m.responsibilities
      priority := m.priority
      similarity := 1/2
      confidence := "medium" }

/-- A raw row of the `match_roles` vector search consumed by
`RoleManager.route_document`. -/
structure RoleSearchRow where
  role_id : ℕ
  role_name : String
  department : String
  responsibilities : String
  priority : ℕ
  similarity : Score
deriving DecidableEq

/-- The dictionary returned by `RoleManager.route_document`. -/
structure RoutingResult where
  matchList : List RoleMatch
  best_match : Option RoleMatch
  fallback_used : Bool
deriving DecidableEq

/-- `RoleManager.route_document` (`src/stakeholder/manager.py` lines 217–287).
`searchRows` stands for the result of the `match_roles` vector search (the top
`k` roles above the caller-supplied threshold, in similarity order) and
`managerData` for the `get_manager_role` store query; both are external store
calls in the Python code. -/
def route_document (searchRows : List RoleSearchRow)
    (managerData : Option ManagerRoleData) : RoutingResult :=
  let matchList := searchRows.map fun r =>
    { role_id := r.role_id
      role_name := r.role_name
      department := r.department
      responsibilities := r.responsibilities
      priority := r.priority
      similarity := r.similarity
      confidence := calculate_confidence r.similarity : RoleMatch }
  match matchList with
  | [] =>
      match get_manager_role managerData with
      | some fb => { matchList := [fb], best_match := some fb, fallback_used := true }
      | none => { matchList := [], best_match := none, fallback_used := false }
  | m :: _ => { matchList := matchList, best_match := some m, fallback_used := false }

/-! ### Ingestion-time auto-routing — `src/api.py` (`ingest_document`) -/

/-- One document-role assignment performed by the ingest endpoint
(`doc_role_manager.assign_document_to_role` call), keeping the fields the
routing decision is about. -/
structure AssignmentRecord where
  role_id : ℕ
  similarity : Score
  primary : Bool
deriving DecidableEq

/-- The ingestion-time auto-routing decision of `ingest_document`
(`src/api.py` lines 190–246): given the non-empty-or-empty `matches` list of the
routing call, always assign the top match as primary; additionally assign the
second match (non-primary) iff the similarity gap is `< 0.1` and the second
similarity is `> 0.5`. -/
def ingest_route_assignments : List RoleMatch → List AssignmentRecord
  | [] => []
  | [top] => [{ role_id := top.role_id, similarity := top.similarity, primary := true }]
  | top :: second :: _ =>
      if top.similarity - second.similarity < 1/10 ∧ second.similarity > 1/2 then
        [{ role_id := top.role_id, similarity := top.similarity, primary := true },
         { role_id := second.role_id, similarity := second.similarity, primary := false }]
      else [{ role_id := top.role_id, similarity := top.similarity, primary := true }]

/-- Sample role match used to instantiate universally quantified statements. -/
def sampleMatch (id : ℕ) (s : Score) : RoleMatch :=
  { role_id := id
    role_name := "Engineer"
    department := "Engineering"
    responsibilities := "Build and maintain infrastructure"
    priority := 1
    similarity := s
    confidence := calculate_confidence s }

/-- Sample manager-role row used to instantiate universally quantified statements. -/
def sampleManager : ManagerRoleData :=
  { role_id := 7
    role_name := "Manager"
    department := "Management"
    responsibilities := "Oversee all operations"
    priority := 0 }

/-! ### Hybrid retriever — `src/retrieval/hybrid_search.py` -/

/-- A row of the `match_vectors` child-fragment vector search consumed by
`HybridRetriever.search`. -/
structure ChildMatch where
  parent_id : String
  content : String
  similarity : Score
deriving DecidableEq

/-- The metadata dictionary of a `parent_documents` row; only the keys read by
`_fetch_parent_documents` and the RAG query system are kept, each optional as
in the Python dict. -/
structure ParentMeta where
  mtype : Option String
  source : Option String
  section_header : Option String
  page_num : Option String
  uploaded_at : Option String
deriving DecidableEq

/-- A `parent_documents` row as read by `_fetch_parent_documents`. -/
structure ParentDoc where
  content : String
  metadata : ParentMeta
deriving DecidableEq

/-- One entry of the result list built by `_fetch_parent_documents`. -/
structure SearchResult where
  parent_id : String
  parent_content : String
  child_content : String
  similarity_score : Score
  metadata : ParentMeta
  mtype : String
  source : String
  sectionStr : String
deriving DecidableEq

/-- `HybridRetriever._fetch_parent_documents` (lines 121–170): fetch the owning
parent of each candidate through the store (`lookup`); a candidate whose parent
is missing is dropped. -/
def fetch_parent_documents (lookup : String → Option ParentDoc)
    (child_matches : List ChildMatch) : List SearchResult :=
  child_matches.filterMap fun child =>
    (lookup child.parent_id).map fun parent =>
      { parent_id := child.parent_id
        parent_content := parent.content
        child_content := child.content
        similarity_score := child.similarity
        metadata := parent.metadata
        mtype := parent.metadata.mtype.getD "unknown"
        source := parent.metadata.source.getD "unknown"
        sectionStr := parent.metadata.section_header.getD "N/A" }

/-- One step of the `seen_parents` dictionary update in `_deduplicate_results`:
`seen_parents[parent_id] = result` when the key is absent or the new score is
strictly higher.  A Python dict keeps the slot position of a replaced key, which
the association list mirrors: replacement happens in place at the first (only)
occurrence of the key, insertion appends at the end. -/
def updateSeen : List (String × SearchResult) → SearchResult → List (String × SearchResult)
  | [], r => [(r.parent_id, r)]
  | (k, v) :: rest, r =>
      if k = r.parent_id then
        (if r.similarity_score > v.similarity_score then (k, r) else (k, v)) :: rest
      else (k, v) :: updateSeen rest r

/-- The `for result in results` loop of `_deduplicate_results` building
`seen_parents`. -/
def buildSeen : List SearchResult → List (String × SearchResult) →
    List (String × SearchResult)
  | [], seen => seen
  | r :: rs, seen => buildSeen rs (updateSeen seen r)

/-- Stable insertion for the descending sort: walk past earlier-placed elements
only while their score is strictly higher, so equal-score elements keep their
relative order — the extensional behaviour of Python's stable
`sorted(key=score, reverse=True)`. -/
def insertDesc (r : SearchResult) : List SearchResult → List SearchResult
  | [] => [r]
  | x :: xs =>
      if x.similarity_score > r.similarity_score then x :: insertDesc r xs
      else r :: x :: xs

/-- Stable descending sort by `similarity_score` (model of the
`sorted(..., key=lambda x: x["similarity_score"], reverse=True)` call). -/
def sortDesc : List SearchResult → List SearchResult
  | [] => []
  | x :: xs => insertDesc x (sortDesc xs)

/-- `HybridRetriever._deduplicate_results` (lines 172–204): group by
`parent_id` keeping the highest score, sort by similarity descending, truncate
to `top_k`. -/
def deduplicate_results (results : List SearchResult) (top_k : ℕ) : List SearchResult :=
  (sortDesc ((buildSeen results []).map Prod.snd)).take top_k

/-- `HybridRetriever.search` (lines 27–75), with the externals as parameters:
`embedF` is the embedding model, `vectorSearch` the `match_vectors` store
search (called with `top_k * 2` candidates), `lookup` the parent-document
store fetch. -/
def hybrid_search (embedF : String → List Score)
    (vectorSearch : List Score → ℕ → Score → List ChildMatch)
    (lookup : String → Option ParentDoc)
    (query : String) (top_k : ℕ) (similarity_threshold : Score) : List SearchResult :=
  let query_embedding := embedF query
  let child_matches := vectorSearch query_embedding (top_k * 2) similarity_threshold
  match child_matches with
  | [] => []
  | _ :: _ => deduplicate_results (fetch_parent_documents lookup child_matches) top_k

/-- Index of the first candidate owned by parent `k` (used to state the
ordering behaviour of the dedup dictionary). -/
def firstOcc : List SearchResult → String → ℕ
  | [], _ => 0
  | x :: xs, k => if x.parent_id = k then 0 else firstOcc xs k + 1

/-- Invariant of the `seen_parents` dictionary after processing the candidate
prefix `pre`: every stored entry is keyed by its own parent id, is one of the
processed candidates, and dominates every processed candidate of the same
parent; every processed candidate's parent is present; and the keys are in
order of first occurrence of the parent among the candidates. -/
structure SeenInv (pre : List SearchResult) (seen : List (String × SearchResult)) : Prop where
  entry : ∀ p ∈ seen, p.2.parent_id = p.1 ∧ p.2 ∈ pre ∧
      ∀ x ∈ pre, x.parent_id = p.1 → x.similarity_score ≤ p.2.similarity_score
  complete : ∀ x ∈ pre, x.parent_id ∈ seen.map Prod.fst
  ordered : (seen.map Prod.fst).Pairwise (fun a b => firstOcc pre a < firstOcc pre b)

/-- The ordering relation realized by the deduplicated, sorted result list:
strictly larger similarity first, equal similarities ordered by ascending
`f` (the first-occurrence index of the parent). -/
def simLex (f : SearchResult → ℕ) (a b : SearchResult) : Prop :=
  b.similarity_score < a.similarity_score ∨
  (a.similarity_score = b.similarity_score ∧ f a < f b)

/-- Sample parent metadata for concrete evaluations. -/
def cexMeta : ParentMeta :=
  { mtype := none
    source := none
    section_header := none
    page_num := none
    uploaded_at := none }

/-- A concrete search-result candidate with the given parent id and score. -/
def cexResult (pid : String) (s : Score) : SearchResult :=
  { parent_id := pid
    parent_content := "parent content"
    child_content := "child content"
    similarity_score := s
    metadata := cexMeta
    mtype := "text"
    source := "doc.pdf"
    sectionStr := "S" }

/-! ### Structural splitter — `src/ingestion/markdown_splitter.py` -/

/-- A typed chunk produced by `_split_section_content` (the Python dict
`{"content": ..., "type": ...}`). -/
structure SectionChunk where
  content : String
  ctype : String
deriving DecidableEq

/-- Python `str.strip()` (whitespace at both ends removed), implemented over
the character list so that concrete evaluations reduce. -/
def pyStrip (s : String) : String :=
  String.mk (((s.data.dropWhile Char.isWhitespace).reverse.dropWhile
    Char.isWhitespace).reverse)

/-- Python `str.split(sep)` for a single-character separator: split at every
occurrence, keeping empty parts. -/
def splitOnChar (sep : Char) : List Char → List (List Char)
  | [] => [[]]
  | c :: rest =>
      if c = sep then [] :: splitOnChar sep rest
      else
        match splitOnChar sep rest with
        | [] => [[c]]
        | h :: t => (c :: h) :: t

/-- Python `content.split('\n')`. -/
def pySplitLines (s : String) : List String := (splitOnChar (Char.ofNat 10) s.data).map String.mk

/-- First index of `sub` as a contiguous sublist (Python `str.find`-style
search, `none` when absent). -/
def findSub : List Char → List Char → Option ℕ
  | [], sub => if sub.isEmpty then some 0 else none
  | c :: rest, sub =>
      if sub.isPrefixOf (c :: rest) then some 0
      else (findSub rest sub).map (· + 1)

/-- Matchability of `re.match(r'!\[.*?\]\(.*?\)', line.strip())`: the stripped
line starts with `![` and is followed somewhere by `](` and, after that, a
`)` (lines never contain a newline, so `.` covers every character). -/
def isImageLine (line : String) : Bool :=
  let t := (pyStrip line).data
  "![".data.isPrefixOf t &&
    match findSub (t.drop 2) "](".data with
    | none => false
    | some i => ((t.drop 2).drop (i + 2)).contains ')'

/-- Matchability of `re.match(r'^\s*\|.*\|\s*$', line)`: stripped of
surrounding whitespace, the line starts and ends with a pipe and those two
pipes are distinct characters. -/
def isTableLine (line : String) : Bool :=
  let t := (pyStrip line).data
  2 ≤ t.length && "|".data.isPrefixOf t && "|".data.isSuffixOf t

/-- The loop state of `_split_section_content`. -/
structure SplitState where
  chunks : List SectionChunk
  current_chunk : List String
  current_type : Option String
  in_table : Bool
deriving DecidableEq

/-- `'\n'.join(current_chunk)`. -/
def joinLines (ls : List String) : String := String.intercalate "\n" ls

/-- The `chunk_text = '\n'.join(current_chunk).strip(); if chunk_text:
chunks.append(...)` step. -/
def flushChunk (chunks : List SectionChunk) (cur : List String) (ty : String) :
    List SectionChunk :=
  let chunk_text := pyStrip (joinLines cur)
  if chunk_text ≠ "" then chunks ++ [{ content := chunk_text, ctype := ty }] else chunks

/-- One iteration of the `while i < len(lines)` loop of
`_split_section_content` (`src/ingestion/markdown_splitter.py` lines 121–182). -/
def stepLine (st : SplitState) (line : String) : SplitState :=
  if isImageLine line then
    let st1 :=
      if st.current_chunk ≠ [] then
        { chunks := flushChunk st.chunks st.current_chunk (st.current_type.getD "text")
          current_chunk := []
          current_type := none
          in_table := st.in_table }
      else st
    { st1 with chunks := st1.chunks ++ [{ content := pyStrip line, ctype := "image" }] }
  else if isTableLine line then
    let st1 :=
      if ¬ st.in_table then
        let st2 :=
          if st.current_chunk ≠ [] then
            { st with
              chunks := flushChunk st.chunks st.current_chunk (st.current_type.getD "text")
              current_chunk := [] }
          else st
        { st2 with in_table := true, current_type := some "table" }
      else st
    { st1 with current_chunk := st1.current_chunk ++ [line] }
  else
    let st1 :=
      if st.in_table then
        { chunks := flushChunk st.chunks st.current_chunk "table"
          current_chunk := []
          current_type := some "text"
          in_table := false }
      else st
    if pyStrip line ≠ "" then
      let st2 :=
        if st1.current_type ≠ some "text" then
          if st1.current_chunk ≠ [] then
            { st1 with
              chunks := flushChunk st1.chunks st1.current_chunk (st1.current_type.getD "text")
              current_chunk := [] }
          else st1
        else st1
      { st2 with current_type := some "text", current_chunk := st2.current_chunk ++ [line] }
    else st1

/-- `MarkdownSplitter._split_section_content` (lines 96–194): run the line
loop over `content.split('\n')`, flush the remaining chunk, and fall back to
one text chunk holding the whole stripped section when nothing was produced. -/
def split_section_content (content : String) : List SectionChunk :=
  let lines := pySplitLines content
  let final := lines.foldl stepLine
    { chunks := []
      current_chunk := []
      current_type := none
      in_table := false }
  let chunks :=
    if final.current_chunk ≠ [] then
      flushChunk final.chunks final.current_chunk (final.current_type.getD "text")
    else final.chunks
  if chunks = [] then [{ content := pyStrip content, ctype := "text" }] else chunks

/-! ### RAG query system — `src/retrieval/rag_query.py` -/

/-- `[label + value]` when the optional metadata value is present and truthy
(Python `if metadata.get(key):` — an empty string is falsy). -/
def optField (v : Option String) (label : String) : List String :=
  match v with
  | some s => if s ≠ "" then [label ++ s] else []
  | none => []

/-- `RAGQuerySystem._build_context` (lines 82–118): a `[Source N] (...)` header
followed by the parent content, per result, joined with `---` separators. -/
def build_context (results : List SearchResult) : String :=
  String.intercalate "\n---\n" (results.enum.map fun p =>
    let metadata := p.2.metadata
    let source_details :=
      optField metadata.source "Document: " ++
      optField metadata.page_num "Page: " ++
      optField metadata.section_header "Section: " ++
      optField metadata.uploaded_at "Date: "
    let source_info := "[Source " ++ toString (p.1 + 1) ++ "]" ++
      (if source_details ≠ [] then
        " (" ++ String.intercalate ", " source_details ++ ")"
      else "")
    source_info ++ "\n" ++ p.2.parent_content ++ "\n")

/-- `RAGQuerySystem._build_citation_guide` (lines 174–202). -/
def build_citation_guide (results : List SearchResult) : String :=
  String.intercalate "\n" (results.enum.map fun p =>
    let metadata := p.2.metadata
    let parts := ["Source " ++ toString (p.1 + 1) ++ ":"] ++
      optField metadata.source "" ++
      optField metadata.page_num "(Page " ++
      optField metadata.section_header "Section: " ++
      optField metadata.mtype "["
    String.intercalate " " parts)

/-- `RAGQuerySystem._generate_answer` (lines 120–172): build the citation
prompt and invoke the language model (`llm`, external, may fail); a failure
degrades to an error string. -/
def generate_answer (llm : String → Except String String)
    (question context : String) (results : List SearchResult) : String :=
  let citation_guide := build_citation_guide results
  let prompt :=
    "You are a helpful assistant answering questions about infrastructure documentation.\n\nCONTEXT (Retrieved from database with source markers):\n"
    ++ context ++ "\n\nCITATION GUIDE:\n" ++ citation_guide ++
    "\n\nUSER QUESTION:\n" ++ question ++ "\n\nINSTRUCTIONS:\n1. Answer the question using ONLY the information provided in the context above\n2. You MUST cite sources for every fact, claim, or piece of information you mention\n3. Use inline citations in this format: [Source N] where N is the source number\n4. If information comes from multiple sources, cite all: [Source 1, Source 2]\n5. Include page numbers and sections when relevant: [Source 1, Page 5, Section 3]\n6. If the context doesn\x27t contain enough information to answer, say so clearly\n7. Be specific and detailed, but concise\n8. Preserve technical terminology and exact values from the sources\n\nANSWER (with citations):"
  match llm prompt with
  | Except.ok response => pyStrip response
  | Except.error e => "Error generating response: " ++ e

/-- One source entry built by `RAGQuerySystem._extract_sources` (lines 204–231). -/
structure RagSource where
  source_number : ℕ
  document : String
  page : String
  sectionName : String
  rtype : String
  timestamp : String
  similarity_score : Score
deriving DecidableEq

/-- `RAGQuerySystem._extract_sources`. -/
def extract_sources (results : List SearchResult) : List RagSource :=
  results.enum.map fun p =>
    { source_number := p.1 + 1
      document := p.2.metadata.source.getD "Unknown"
      page := p.2.metadata.page_num.getD "N/A"
      sectionName := p.2.metadata.section_header.getD "N/A"
      rtype := p.2.metadata.mtype.getD "unknown"
      timestamp := p.2.metadata.uploaded_at.getD "N/A"
      similarity_score := p.2.similarity_score }

/-- The fixed zero-result answer string of `RAGQuerySystem.query`. -/
def no_info_answer : String :=
  "I couldn\x27t find any relevant information to answer your question."

/-- The dictionary returned by `RAGQuerySystem.query`. -/
structure QueryResponse where
  answer : String
  sources : List RagSource
  retrieved_chunks : List SearchResult
deriving DecidableEq

/-- `RAGQuerySystem.query` (lines 32–80), with the retriever and the language
model as parameters.  The boolean of the returned pair records whether the
generation path (`_build_context` / `_generate_answer`) was entered; the code
reaches it only when retrieval returned results. -/
def rag_query (retrieve : String → ℕ → List SearchResult)
    (llm : String → Except String String) (question : String) (top_k : ℕ) :
    QueryResponse × Bool :=
  let results := retrieve question top_k
  match results with
  | [] => ({ answer := no_info_answer, sources := [], retrieved_chunks := [] }, false)
  | _ :: _ =>
      let context := build_context results
      let answer := generate_answer llm question context results
      let sources := extract_sources results
      ({ answer := answer, sources := sources, retrieved_chunks := results }, true)

/-! ### Recursive text chunker — `src/ingestion/text_chunker.py` -/

/-- A child chunk produced by `TextChunker.chunk_text`: the parent metadata
dict is copied, and the two fragment-local keys are present only on the
normal (long-text) path. -/
structure ChildChunk where
  content : String
  parentMeta : List (String × String)
  child_chunk_index : Option ℕ
  total_child_chunks : Option ℕ
deriving DecidableEq

/-- `TextChunker.chunk_text` (`src/ingestion/text_chunker.py` lines 33–74).
`splitter` is the external langchain `RecursiveCharacterTextSplitter.split_text`.
Content whose stripped length is below 50 is returned as one chunk whose
metadata is the parent metadata unchanged; otherwise every chunk additionally
carries `child_chunk_index` and `total_child_chunks`. -/
def chunk_text (splitter : String → List String) (text_content : String)
    (parent_metadata : List (String × String)) : List ChildChunk :=
  if (pyStrip text_content).length < 50 then
    [{ content := pyStrip text_content
       parentMeta := parent_metadata
       child_chunk_index := none
       total_child_chunks := none }]
  else
    let chunks := splitter text_content
    chunks.enum.map fun p =>
      { content := p.2
        parentMeta := parent_metadata
        child_chunk_index := some p.1
        total_child_chunks := some chunks.length }

/-! ### Embedding service — `src/retrieval/embeddings.py` -/

/-- `EmbeddingModel.embed_documents` (`src/retrieval/embeddings.py` lines
46–67).  `embedModel` is the external batch embedding call
(`self.model.embed_documents`) and `dim` the configured `EMBEDDING_DIM`:
an empty input gives `[]`; if every text is empty or whitespace, one zero
vector per input text is returned; otherwise the external model is called on
the non-blank texts only. -/
def embed_documents (embedModel : List String → List (List Score)) (dim : ℕ)
    (texts : List String) : List (List Score) :=
  match texts with
  | [] => []
  | _ :: _ =>
      let valid_texts := texts.filter (fun t => pyStrip t ≠ "")
      match valid_texts with
      | [] => List.replicate texts.length (List.replicate dim 0)
      | _ :: _ => embedModel valid_texts

/-! ### Ingestion pipeline — `src/ingestion/pipeline.py` -/

/-- Python `str.find(sub, start)`: lowest index at least `start` where `sub`
occurs, `-1` when absent. -/
def pyFind (s sub : String) (start : ℕ) : ℤ :=
  match findSub (s.data.drop start) sub.data with
  | some i => ((start + i : ℕ) : ℤ)
  | none => -1

/-- Python `s[a:b]` slicing with possibly negative bounds. -/
def pySlice (s : String) (a b : ℤ) : String :=
  let n : ℤ := s.data.length
  let i := if a < 0 then max 0 (n + a) else min a n
  let j := if b < 0 then max 0 (n + b) else min b n
  String.mk ((s.data.drop i.toNat).take (j - i).toNat)

/-- `IngestionPipeline._extract_image_url` (lines 243–250):
`start = markdown_image.find('](') + 2; end = markdown_image.find(')', start);
return markdown_image[start:end]`. -/
def extract_image_url (markdown_image : String) : String :=
  let start := pyFind markdown_image "](" 0 + 2
  let e := pyFind markdown_image ")" start.toNat
  pySlice markdown_image start e

/-- A parent node handed to `_process_parent_node` (content, metadata dict,
and the node kind). -/
structure PipelineNode where
  content : String
  metadata : List (String × String)
  ntype : String
deriving DecidableEq

/-- A `parent_documents` row written by `insert_parent_doc`. -/
structure ParentRecord where
  content : String
  metadata : List (String × String)
  source_created_at : String
deriving DecidableEq

/-- A `child_vectors` row written by `insert_child_vector`; the parent id is
the row's position in the parent table. -/
structure ChildVectorRecord where
  content : String
  embedding : List Score
  parent_id : ℕ
  parentMeta : List (String × String)
  child_chunk_index : Option ℕ
  total_child_chunks : Option ℕ
deriving DecidableEq

/-- The persistent store touched by the pipeline: the parent table and the
child-vector table, in insertion order. -/
structure DBState where
  parents : List ParentRecord
  children : List ChildVectorRecord
deriving DecidableEq

/-- `IngestionPipeline._process_text_node` (lines 156–180): split into child
chunks, embed each, store each. -/
def process_text_node (splitter : String → List String)
    (embedF : String → List Score) (content : String)
    (metadata : List (String × String)) (parent_id : ℕ) (st : DBState) : DBState :=
  let child_chunks := chunk_text splitter content metadata
  { st with children := st.children ++ child_chunks.map fun c =>
      { content := c.content
        embedding := embedF c.content
        parent_id := parent_id
        parentMeta := c.parentMeta
        child_chunk_index := c.child_chunk_index
        total_child_chunks := c.total_child_chunks } }

/-- `IngestionPipeline._process_table_node` (lines 182–206): summarize the
table (external generator), embed the summary, store one child vector. -/
def process_table_node (summarize : String → List (String × String) → String)
    (embedF : String → List Score) (content : String)
    (metadata : List (String × String)) (parent_id : ℕ) (st : DBState) : DBState :=
  let summary := summarize content metadata
  { st with children := st.children ++
      [{ content := summary
         embedding := embedF summary
         parent_id := parent_id
         parentMeta := metadata
         child_chunk_index := none
         total_child_chunks := none }] }

/-- `IngestionPipeline._process_image_node` (lines 208–241): extract the image
URL from the markdown; when none is found, log and return without storing a
child vector; otherwise caption the image (external generator), embed the
caption, store one child vector. -/
def process_image_node (caption : String → List (String × String) → String)
    (embedF : String → List Score) (content : String)
    (metadata : List (String × String)) (parent_id : ℕ) (st : DBState) : DBState :=
  let image_url := extract_image_url content
  if image_url = "" then st
  else
    let cap := caption image_url metadata
    { st with children := st.children ++
        [{ content := cap
           embedding := embedF cap
           parent_id := parent_id
           parentMeta := metadata
           child_chunk_index := none
           total_child_chunks := none }] }

/-- `IngestionPipeline._process_parent_node` (lines 119–154): insert the
parent record first, then create child vectors according to the node kind.
The externals (langchain splitter, generator summaries/captions, embedding
model) are parameters. -/
def process_parent_node (splitter : String → List String)
    (summarize caption : String → List (String × String) → String)
    (embedF : String → List Score) (upload_timestamp : String)
    (st : DBState) (node : PipelineNode) : DBState :=
  let parent_id := st.parents.length
  let st1 : DBState :=
    { parents := st.parents ++
        [{ content := node.content
           metadata := node.metadata
           source_created_at := upload_timestamp }]
      children := st.children }
  if node.ntype = "text" then
    process_text_node splitter embedF node.content node.metadata parent_id st1
  else if node.ntype = "table" then
    process_table_node summarize embedF node.content node.metadata parent_id st1
  else if node.ntype = "image" then
    process_image_node caption embedF node.content node.metadata parent_id st1
  else st1

/-- C1: at ingestion-time auto-routing, when the routing call returns a
non-empty match list the top match is always assigned as primary, a second
(non-primary) assignment is made iff the gap between the first two similarities
is `< 0.1` and the second similarity is `> 0.5`, and never more than two
assignments are made. -/
theorem ingest_route_assignments_policy (matchList : List RoleMatch)
    (hne : matchList ≠ []) :
    (∃ top rest, matchList = top :: rest ∧
      (ingest_route_assignments matchList).head? =
        some { role_id := top.role_id, similarity := top.similarity, primary := true }) ∧
    ((∃ a ∈ ingest_route_assignments matchList, a.primary = false) ↔
      (∃ top second rest, matchList = top :: second :: rest ∧
        top.similarity - second.similarity < 1/10 ∧ second.similarity > 1/2)) ∧
    (ingest_route_assignments matchList).length ≤ 2 := by
  match matchList with
  | [] => exact absurd rfl hne
  | [top] =>
      refine ⟨⟨top, [], rfl, rfl⟩, ?_, by simp [ingest_route_assignments]⟩
      simp [ingest_route_assignments]
  | top :: second :: rest =>
      by_cases hc : top.similarity - second.similarity < 1/10 ∧ second.similarity > 1/2
      · have hval : ingest_route_assignments (top :: second :: rest) =
            [{ role_id := top.role_id, similarity := top.similarity, primary := true },
             { role_id := second.role_id, similarity := second.similarity,
               primary := false }] := by
          simp only [ingest_route_assignments]
          rw [if_pos hc]
        refine ⟨⟨top, second :: rest, rfl, ?_⟩, ?_, ?_⟩
        · rw [hval]; rfl
        · constructor
          · intro _; exact ⟨top, second, rest, rfl, hc.1, hc.2⟩
          · intro _
            refine ⟨{ role_id := second.role_id, similarity := second.similarity,
                      primary := false }, ?_, rfl⟩
            rw [hval]; simp
        · rw [hval]; simp
      · have hval : ingest_route_assignments (top :: second :: rest) =
            [{ role_id := top.role_id, similarity := top.similarity, primary := true }] := by
          simp only [ingest_route_assignments]
          rw [if_neg hc]
        refine ⟨⟨top, second :: rest, rfl, ?_⟩, ?_, ?_⟩
        · rw [hval]; rfl
        · constructor
          · intro h
            rcases h with ⟨a, ha, hap⟩
            rw [hval] at ha
            simp at ha
            subst ha
            simp at hap
          · rintro ⟨top2, second2, rest2, heq, h1, h2⟩
            cases heq
            exact absurd ⟨h1, h2⟩ hc
        · rw [hval]; simp

/-- Witness for C1 at the spec's own example `[0.91, 0.88]`. -/
theorem ingest_route_assignments_policy_witness :
    ([sampleMatch 1 (91/100), sampleMatch 2 (88/100)] : List RoleMatch) ≠ [] ∧
    (ingest_route_assignments [sampleMatch 1 (91/100), sampleMatch 2 (88/100)]).length ≤ 2 :=
  ⟨by simp,
   (ingest_route_assignments_policy [sampleMatch 1 (91/100), sampleMatch 2 (88/100)]
      (by simp)).2.2⟩

/-- C2: when the role vector search returns no match above the threshold,
`route_document` flags `fallback_used = true` with a best match of similarity
`0.5` and confidence `"medium"` whenever a manager role exists, and returns
`best_match = none` with `fallback_used = false` when none exists. -/
theorem route_document_fallback (searchRows : List RoleSearchRow)
    (managerData : Option ManagerRoleData) (hnone : searchRows = []) :
    (∀ m : ManagerRoleData, managerData = some m →
      (route_document searchRows managerData).fallback_used = true ∧
      ∃ fb, (route_document searchRows managerData).best_match = some fb ∧
        fb.similarity = 1/2 ∧ fb.confidence = "medium") ∧
    (managerData = none →
      (route_document searchRows managerData).best_match = none ∧
      (route_document searchRows managerData).fallback_used = false) := by
  subst hnone
  cases managerData with
  | none => simp [route_document, get_manager_role]
  | some m =>
      constructor
      · intro m' hm'
        cases hm'
        exact ⟨rfl, ⟨_, rfl, rfl, rfl⟩⟩
      · intro h; cases h

/-- Witness for C2: empty search result with and without a manager role. -/
theorem route_document_fallback_witness :
    (route_document [] (some sampleManager)).fallback_used = true ∧
    (route_document [] none).best_match = none :=
  ⟨((route_document_fallback [] (some sampleManager) rfl).1 sampleManager rfl).1,
   ((route_document_fallback [] none rfl).2 rfl).1⟩

/-- C3: on `[0,1]` the confidence tier is `"high"` iff `s ≥ 0.8`, `"medium"`
iff `0.65 ≤ s < 0.8`, `"low"` iff `s < 0.65`; in particular `0.82 ↦ "high"`,
`0.70 ↦ "medium"`, `0.50 ↦ "low"`. -/
theorem calculate_confidence_tiers :
    (∀ s : Score, 0 ≤ s → s ≤ 1 →
      ((calculate_confidence s = "high" ↔ 8/10 ≤ s) ∧
       (calculate_confidence s = "medium" ↔ 65/100 ≤ s ∧ s < 8/10) ∧
       (calculate_confidence s = "low" ↔ s < 65/100))) ∧
    calculate_confidence (82/100) = "high" ∧
    calculate_confidence (70/100) = "medium" ∧
    calculate_confidence (50/100) = "low" := by
  refine ⟨?_, by norm_num [calculate_confidence], by norm_num [calculate_confidence],
    by norm_num [calculate_confidence]⟩
  intro s _ _
  unfold calculate_confidence
  split_ifs with h1 h2
  · refine ⟨⟨fun _ => h1, fun _ => rfl⟩, ?_, ?_⟩
    · exact ⟨fun h => absurd h (by decide), fun h => absurd h1 (not_le.mpr h.2)⟩
    · exact ⟨fun h => absurd h (by decide), fun h => absurd h (not_lt.mpr (by linarith))⟩
  · refine ⟨?_, ⟨fun _ => ⟨h2, lt_of_not_le h1⟩, fun _ => rfl⟩, ?_⟩
    · exact ⟨fun h => absurd h (by decide), fun h => absurd h h1⟩
    · exact ⟨fun h => absurd h (by decide), fun h => absurd h (not_lt.mpr h2)⟩
  · refine ⟨?_, ?_, ⟨fun _ => lt_of_not_le h2, fun _ => rfl⟩⟩
    · exact ⟨fun h => absurd h (by decide), fun h => absurd h h1⟩
    · exact ⟨fun h => absurd h (by decide), fun h => absurd h.1 h2⟩

theorem firstOcc_append_left {l₁ : List SearchResult} (l₂ : List SearchResult)
    {k : String} (h : k ∈ l₁.map SearchResult.parent_id) :
    firstOcc (l₁ ++ l₂) k = firstOcc l₁ k := by
  induction l₁ with
  | nil => simp at h
  | cons x xs ih =>
      by_cases hx : x.parent_id = k
      · simp [firstOcc, hx]
      · simp [firstOcc, hx] at h ⊢
        rcases h with h | h
        · exact absurd h (fun he => hx he.symm)
        · exact ih (List.mem_map.mpr h)

theorem firstOcc_lt_length {l : List SearchResult} {k : String}
    (h : k ∈ l.map SearchResult.parent_id) : firstOcc l k < l.length := by
  induction l with
  | nil => simp at h
  | cons x xs ih =>
      by_cases hx : x.parent_id = k
      · simp [firstOcc, hx]
      · simp [firstOcc, hx] at h ⊢
        rcases h with h | h
        · exact absurd h (fun he => hx he.symm)
        · exact ih (List.mem_map.mpr h)

theorem firstOcc_append_right {l₁ : List SearchResult} (l₂ : List SearchResult)
    {k : String} (h : k ∉ l₁.map SearchResult.parent_id) :
    firstOcc (l₁ ++ l₂) k = l₁.length + firstOcc l₂ k := by
  induction l₁ with
  | nil => simp [firstOcc]
  | cons x xs ih =>
      have hx : x.parent_id ≠ k := by
        intro he; exact h (by simp [he])
      have hxs : k ∉ xs.map SearchResult.parent_id := by
        intro hm; exact h (by simp [hm])
      have h1 : firstOcc ((x :: xs) ++ l₂) k = firstOcc (xs ++ l₂) k + 1 := by
        simp [firstOcc, hx]
      have h2 : firstOcc (x :: xs) k = firstOcc xs k + 1 := by
        simp [firstOcc, hx]
      rw [h1, ih hxs]
      simp
      omega

/-- Witness for C3 at the spec's three example scores, instantiating the
quantified part at `0.82`. -/
theorem calculate_confidence_tiers_witness :
    (calculate_confidence (82/100) = "high" ↔ (8/10 : Score) ≤ 82/100) ∧
    calculate_confidence (82/100) = "high" ∧
    calculate_confidence (70/100) = "medium" ∧
    calculate_confidence (50/100) = "low" :=
  ⟨(calculate_confidence_tiers.1 (82/100) (by norm_num) (by norm_num)).1,
   calculate_confidence_tiers.2.1, calculate_confidence_tiers.2.2.1,
   calculate_confidence_tiers.2.2.2⟩

theorem updateSeen_of_not_mem {seen : List (String × SearchResult)} {r : SearchResult}
    (h : r.parent_id ∉ seen.map Prod.fst) :
    updateSeen seen r = seen ++ [(r.parent_id, r)] := by
  induction seen with
  | nil => rfl
  | cons p rest ih =>
      obtain ⟨k, v⟩ := p
      have hk : ¬ k = r.parent_id := by intro he; exact h (by simp [he])
      have hrest : r.parent_id ∉ rest.map Prod.fst := by
        intro hm; exact h (by simp [hm])
      simp [updateSeen, hk, ih hrest]

theorem updateSeen_of_mem {seen : List (String × SearchResult)} {r : SearchResult}
    (h : r.parent_id ∈ seen.map Prod.fst) :
    ∃ s₁ v s₂, seen = s₁ ++ (r.parent_id, v) :: s₂ ∧ r.parent_id ∉ s₁.map Prod.fst ∧
      updateSeen seen r = s₁ ++ (r.parent_id,
        if r.similarity_score > v.similarity_score then r else v) :: s₂ := by
  induction seen with
  | nil => simp at h
  | cons p rest ih =>
      obtain ⟨k, v⟩ := p
      by_cases hk : k = r.parent_id
      · subst hk
        refine ⟨[], v, rest, by simp, by simp, ?_⟩
        by_cases hlt : r.similarity_score > v.similarity_score
        · simp [updateSeen, hlt]
        · simp [updateSeen, hlt]
      · have hmem : r.parent_id ∈ rest.map Prod.fst := by
          rcases List.mem_map.mp h with ⟨q, hq, hqk⟩
          rcases List.mem_cons.mp hq with hq | hq
          · exact absurd (by rw [hq] at hqk; exact hqk) hk
          · exact List.mem_map.mpr ⟨q, hq, hqk⟩
        obtain ⟨s₁, w, s₂, hdec, hnot₁, hupd⟩ := ih hmem
        refine ⟨(k, v) :: s₁, w, s₂, by rw [hdec]; rfl, ?_, ?_⟩
        · intro hc
          rcases List.mem_map.mp hc with ⟨q, hq, hqk⟩
          rcases List.mem_cons.mp hq with hq | hq
          · exact hk (by rw [hq] at hqk; exact hqk) |>.elim
          · exact hnot₁ (List.mem_map.mpr ⟨q, hq, hqk⟩)
        · simp [updateSeen, hk, hupd]

theorem keys_sub_parents {pre : List SearchResult} {seen : List (String × SearchResult)}
    (h : SeenInv pre seen) :
    ∀ k ∈ seen.map Prod.fst, k ∈ pre.map SearchResult.parent_id := by
  intro k hk
  obtain ⟨p, hp, hpk⟩ := List.mem_map.mp hk
  obtain ⟨he1, he2, _⟩ := h.entry p hp
  exact List.mem_map.mpr ⟨p.2, he2, by rw [he1, hpk]⟩

theorem seenInv_keys_nodup {pre : List SearchResult} {seen : List (String × SearchResult)}
    (h : SeenInv pre seen) : (seen.map Prod.fst).Nodup := by
  refine h.ordered.imp ?_
  intro a b hab he
  rw [he] at hab
  exact lt_irrefl _ hab

theorem seenInv_update {pre : List SearchResult} {seen : List (String × SearchResult)}
    {r : SearchResult} (h : SeenInv pre seen) :
    SeenInv (pre ++ [r]) (updateSeen seen r) := by
  have hparsub := keys_sub_parents h
  by_cases hmem : r.parent_id ∈ seen.map Prod.fst
  · obtain ⟨s₁, v, s₂, hdec, hnot₁, hupd⟩ := updateSeen_of_mem hmem
    have hvseen : (r.parent_id, v) ∈ seen := by
      rw [hdec]; exact List.mem_append_right _ (List.mem_cons_self _ _)
    obtain ⟨hv1, hv2, hv3⟩ := h.entry _ hvseen
    have hkeys : (s₁ ++ (r.parent_id,
        if r.similarity_score > v.similarity_score then r else v) :: s₂).map Prod.fst =
        seen.map Prod.fst := by
      rw [hdec]; simp
    -- the updated value
    set w : SearchResult :=
      if r.similarity_score > v.similarity_score then r else v with hw
    have hwpar : w.parent_id = r.parent_id := by
      rw [hw]; by_cases hc : r.similarity_score > v.similarity_score
      · simp [hc]
      · simp [hc]; exact hv1
    have hwmem : w ∈ pre ++ [r] := by
      rw [hw]; by_cases hc : r.similarity_score > v.similarity_score
      · simp [hc]
      · simp [hc]; exact Or.inl hv2
    have hwmax : ∀ x ∈ pre ++ [r], x.parent_id = r.parent_id →
        x.similarity_score ≤ w.similarity_score := by
      intro x hx hxp
      rcases List.mem_append.mp hx with hx | hx
      · have hle := hv3 x hx hxp
        rw [hw]; by_cases hc : r.similarity_score > v.similarity_score
        · simp [hc]; exact le_trans hle (le_of_lt hc)
        · simp [hc]; exact hle
      · rw [List.mem_singleton.mp hx]
        rw [hw]; by_cases hc : r.similarity_score > v.similarity_score
        · simp [hc]
        · simp [hc]; exact le_of_not_lt hc
    have hnd := seenInv_keys_nodup h
    rw [hdec] at hnd
    simp only [List.map_append, List.map_cons] at hnd
    -- an old entry in s₁ or s₂ never has key r.parent_id
    have hs₂key : ∀ p ∈ s₂, p.1 ≠ r.parent_id := by
      intro p hp he
      have h1 := (List.nodup_append.mp hnd).2.1
      have h2 := (List.nodup_cons.mp h1).1
      exact h2 (List.mem_map.mpr ⟨p, hp, he⟩)
    have holdmem : ∀ p, p ∈ s₁ ∨ p ∈ s₂ → p ∈ seen := by
      intro p hp
      rw [hdec]
      rcases hp with hp | hp
      · exact List.mem_append_left _ hp
      · exact List.mem_append_right _ (List.mem_cons_of_mem _ hp)
    have holdkey : ∀ p, p ∈ s₁ ∨ p ∈ s₂ → p.1 ≠ r.parent_id := by
      intro p hp
      rcases hp with hp | hp
      · intro he; exact hnot₁ (List.mem_map.mpr ⟨p, hp, he⟩)
      · exact hs₂key p hp
    rw [hupd]
    constructor
    · intro p hp
      rcases List.mem_append.mp hp with hp | hp
      · obtain ⟨he1, he2, he3⟩ := h.entry p (holdmem p (Or.inl hp))
        refine ⟨he1, List.mem_append_left _ he2, ?_⟩
        intro x hx hxp
        rcases List.mem_append.mp hx with hx | hx
        · exact he3 x hx hxp
        · rw [List.mem_singleton.mp hx] at hxp
          exact absurd hxp.symm (holdkey p (Or.inl hp))
      · rcases List.mem_cons.mp hp with hp | hp
        · rw [hp]
          exact ⟨hwpar, hwmem, fun x hx hxp => hwmax x hx hxp⟩
        · obtain ⟨he1, he2, he3⟩ := h.entry p (holdmem p (Or.inr hp))
          refine ⟨he1, List.mem_append_left _ he2, ?_⟩
          intro x hx hxp
          rcases List.mem_append.mp hx with hx | hx
          · exact he3 x hx hxp
          · rw [List.mem_singleton.mp hx] at hxp
            exact absurd hxp.symm (holdkey p (Or.inr hp))
    · intro x hx
      rw [hkeys]
      rcases List.mem_append.mp hx with hx | hx
      · exact h.complete x hx
      · rw [List.mem_singleton.mp hx]
        exact hmem
    · rw [hkeys]
      refine List.Pairwise.imp_of_mem ?_ h.ordered
      intro a b ha hb hab
      rw [firstOcc_append_left _ (hparsub a ha), firstOcc_append_left _ (hparsub b hb)]
      exact hab
  · have hrnot : r.parent_id ∉ pre.map SearchResult.parent_id := by
      intro hc
      obtain ⟨x, hx, hxk⟩ := List.mem_map.mp hc
      have := h.complete x hx
      rw [hxk] at this
      exact hmem this
    rw [updateSeen_of_not_mem hmem]
    constructor
    · intro p hp
      rcases List.mem_append.mp hp with hp | hp
      · obtain ⟨he1, he2, he3⟩ := h.entry p hp
        refine ⟨he1, List.mem_append_left _ he2, ?_⟩
        intro x hx hxp
        rcases List.mem_append.mp hx with hx | hx
        · exact he3 x hx hxp
        · rw [List.mem_singleton.mp hx] at hxp
          have hpk : p.1 ∈ seen.map Prod.fst := List.mem_map.mpr ⟨p, hp, rfl⟩
          rw [← hxp] at hpk
          exact absurd hpk hmem
      · rw [List.mem_singleton.mp hp]
        refine ⟨rfl, List.mem_append_right _ (List.mem_singleton.mpr rfl), ?_⟩
        intro x hx hxp
        rcases List.mem_append.mp hx with hx | hx
        · have := h.complete x hx
          rw [hxp] at this
          exact absurd this hmem
        · rw [List.mem_singleton.mp hx]
    · intro x hx
      rcases List.mem_append.mp hx with hx | hx
      · have := h.complete x hx
        simp only [List.map_append, List.map_cons]
        exact List.mem_append_left _ this
      · rw [List.mem_singleton.mp hx]
        simp
    · simp only [List.map_append, List.map_cons, List.map_nil]
      apply List.pairwise_append.mpr
      refine ⟨?_, List.pairwise_singleton _ _, ?_⟩
      · refine List.Pairwise.imp_of_mem ?_ h.ordered
        intro a b ha hb hab
        rw [firstOcc_append_left _ (hparsub a ha), firstOcc_append_left _ (hparsub b hb)]
        exact hab
      · intro a ha b hb
        rw [List.mem_singleton.mp hb]
        rw [firstOcc_append_left _ (hparsub a ha), firstOcc_append_right _ hrnot]
        have hlt := firstOcc_lt_length (hparsub a ha)
        simp [firstOcc]
        omega

theorem buildSeen_inv : ∀ (rs pre : List SearchResult)
    (seen : List (String × SearchResult)), SeenInv pre seen →
    SeenInv (pre ++ rs) (buildSeen rs seen)
  | [], pre, seen, h => by simpa using h
  | r :: rs, pre, seen, h => by
      have hstep := buildSeen_inv rs (pre ++ [r]) (updateSeen seen r) (seenInv_update h)
      simpa using hstep

theorem seenInv_nil : SeenInv [] [] := by
  constructor
  · intro p hp; cases hp
  · intro x hx; cases hx
  · exact List.Pairwise.nil

theorem buildSeen_full_inv (results : List SearchResult) :
    SeenInv results (buildSeen results []) := by
  have := buildSeen_inv results [] [] seenInv_nil
  simpa using this

theorem simLex_sim_le {f : SearchResult → ℕ} {a b : SearchResult}
    (h : simLex f a b) : b.similarity_score ≤ a.similarity_score := by
  rcases h with h | h
  · exact le_of_lt h
  · exact le_of_eq h.1.symm

theorem insertDesc_perm (r : SearchResult) (l : List SearchResult) :
    (insertDesc r l).Perm (r :: l) := by
  induction l with
  | nil => exact List.Perm.refl _
  | cons x xs ih =>
      by_cases hc : x.similarity_score > r.similarity_score
      · simp only [insertDesc, if_pos hc]
        exact (ih.cons x).trans (List.Perm.swap r x xs)
      · simp only [insertDesc, if_neg hc]
        exact List.Perm.refl _

theorem sortDesc_perm (l : List SearchResult) : (sortDesc l).Perm l := by
  induction l with
  | nil => exact List.Perm.refl _
  | cons x xs ih =>
      exact (insertDesc_perm x (sortDesc xs)).trans (ih.cons x)

theorem insertDesc_pairwise (f : SearchResult → ℕ) (x : SearchResult)
    (l : List SearchResult) (hl : l.Pairwise (simLex f))
    (hx : ∀ y ∈ l, f x < f y) : (insertDesc x l).Pairwise (simLex f) := by
  induction l with
  | nil => exact List.pairwise_singleton _ _
  | cons h t ih =>
      obtain ⟨hh, ht⟩ := List.pairwise_cons.mp hl
      by_cases hc : h.similarity_score > x.similarity_score
      · simp only [insertDesc, if_pos hc]
        apply List.pairwise_cons.mpr
        refine ⟨?_, ih ht (fun y hy => hx y (List.mem_cons_of_mem _ hy))⟩
        intro z hz
        rcases List.mem_cons.mp ((insertDesc_perm x t).mem_iff.mp hz) with hz2 | hz2
        · rw [hz2]; exact Or.inl hc
        · exact hh z hz2
      · simp only [insertDesc, if_neg hc]
        apply List.pairwise_cons.mpr
        constructor
        · intro z hz
          rcases List.mem_cons.mp hz with hz | hz
          · rw [hz]
            rcases lt_or_eq_of_le (le_of_not_lt hc) with hlt | heq
            · exact Or.inl hlt
            · exact Or.inr ⟨heq.symm, hx h (List.mem_cons_self _ _)⟩
          · have hle : z.similarity_score ≤ h.similarity_score := simLex_sim_le (hh z hz)
            rcases lt_or_eq_of_le (le_trans hle (le_of_not_lt hc)) with hlt | heq
            · exact Or.inl hlt
            · exact Or.inr ⟨heq.symm, hx z (List.mem_cons_of_mem _ hz)⟩
        · exact hl

theorem sortDesc_pairwise (f : SearchResult → ℕ) (l : List SearchResult)
    (h : l.Pairwise (fun a b => f a < f b)) :
    (sortDesc l).Pairwise (simLex f) := by
  induction l with
  | nil => exact List.Pairwise.nil
  | cons x xs ih =>
      obtain ⟨hx, hxs⟩ := List.pairwise_cons.mp h
      refine insertDesc_pairwise f x (sortDesc xs) (ih hxs) ?_
      intro y hy
      exact hx y ((sortDesc_perm xs).mem_iff.mp hy)

/-- The kept values of the dedup dictionary, in slot order, are pairwise
ascending in the first-occurrence index of their parents. -/
theorem buildSeen_values_pairwise (results : List SearchResult) :
    ((buildSeen results []).map Prod.snd).Pairwise
      (fun a b => firstOcc results a.parent_id < firstOcc results b.parent_id) := by
  have hinv := buildSeen_full_inv results
  have hmapeq : ((buildSeen results []).map Prod.snd).map SearchResult.parent_id =
      (buildSeen results []).map Prod.fst := by
    rw [List.map_map]
    exact List.map_congr_left (fun p hp => (hinv.entry p hp).1)
  have hord := hinv.ordered
  rw [← hmapeq] at hord
  have h2 := List.pairwise_map.mp hord
  exact h2

/-- C4: one call of the hybrid retriever's `search` returns at most `top_k`
results, and no two returned results share a parent identifier. -/
theorem hybrid_search_top_k_distinct (embedF : String → List Score)
    (vectorSearch : List Score → ℕ → Score → List ChildMatch)
    (lookup : String → Option ParentDoc) (query : String) (top_k : ℕ)
    (similarity_threshold : Score) :
    (hybrid_search embedF vectorSearch lookup query top_k similarity_threshold).length
      ≤ top_k ∧
    (hybrid_search embedF vectorSearch lookup query top_k similarity_threshold).Pairwise
      (fun a b => a.parent_id ≠ b.parent_id) := by
  have key : ∀ results : List SearchResult,
      (deduplicate_results results top_k).length ≤ top_k ∧
      (deduplicate_results results top_k).Pairwise
        (fun a b => a.parent_id ≠ b.parent_id) := by
    intro results
    constructor
    · exact List.length_take_le _ _
    · have hvals := buildSeen_values_pairwise results
      have hne : ((buildSeen results []).map Prod.snd).Pairwise
          (fun a b => a.parent_id ≠ b.parent_id) := by
        refine hvals.imp ?_
        intro a b hab he
        rw [he] at hab
        exact lt_irrefl _ hab
      have hsym : ∀ {x y : SearchResult},
          x.parent_id ≠ y.parent_id → y.parent_id ≠ x.parent_id := fun h => h.symm
      have hsort := ((sortDesc_perm ((buildSeen results []).map Prod.snd)).pairwise_iff
        hsym).mpr hne
      exact List.Pairwise.sublist (List.take_sublist _ _) hsort
  rcases hcm : vectorSearch (embedF query) (top_k * 2) similarity_threshold with _ | ⟨c, cs⟩
  · simp [hybrid_search, hcm]
  · simpa [hybrid_search, hcm] using key (fetch_parent_documents lookup (c :: cs))

/-- C5 (amended): dedup keeps for each parent a candidate of maximal
similarity among that parent's candidates, and the returned list is ordered
by similarity descending, equal-similarity entries ordered by the first
occurrence of their parent among the candidates. -/
theorem deduplicate_results_spec (results : List SearchResult) (top_k : ℕ) :
    (∀ v ∈ deduplicate_results results top_k,
      v ∈ results ∧ ∀ x ∈ results, x.parent_id = v.parent_id →
        x.similarity_score ≤ v.similarity_score) ∧
    (deduplicate_results results top_k).Pairwise
      (simLex (fun v => firstOcc results v.parent_id)) := by
  constructor
  · intro v hv
    have hv2 : v ∈ sortDesc ((buildSeen results []).map Prod.snd) :=
      List.take_subset _ _ hv
    have hv3 : v ∈ (buildSeen results []).map Prod.snd :=
      (sortDesc_perm _).mem_iff.mp hv2
    obtain ⟨p, hp, hpv⟩ := List.mem_map.mp hv3
    obtain ⟨he1, he2, he3⟩ := (buildSeen_full_inv results).entry p hp
    subst hpv
    exact ⟨he2, fun x hx hxp => he3 x hx (by rw [hxp, he1])⟩
  · have hvals := buildSeen_values_pairwise results
    have hsorted := sortDesc_pairwise (fun v => firstOcc results v.parent_id) _ hvals
    exact List.Pairwise.sublist (List.take_sublist _ _) hsorted

/-- C5 counterexample: on the candidates `[A 0, B 1, A 1]` the code returns
the parent-A entry (original candidate position 2) before the parent-B entry
(original candidate position 1) although both have equal similarity 1 —
equal-similarity entries follow the first occurrence of their parent (the
dict slot of parent A, position 0), not the original order of the kept
candidates, refuting the claimed stable-by-candidate-order tie-break. -/
theorem deduplicate_results_stable_order_cex :
    deduplicate_results
        [cexResult "A" 0, cexResult "B" 1, cexResult "A" 1] 3 =
      [cexResult "A" 1, cexResult "B" 1] ∧
    (cexResult "A" 1).similarity_score = (cexResult "B" 1).similarity_score ∧
    List.indexOf (cexResult "B" 1)
        [cexResult "A" 0, cexResult "B" 1, cexResult "A" 1] <
      List.indexOf (cexResult "A" 1)
        [cexResult "A" 0, cexResult "B" 1, cexResult "A" 1] := by
  refine ⟨?_, rfl, ?_⟩
  · rfl
  · decide

/-- Witness for C5's amended statement: the kept parent-B entry is one of the
original candidates. -/
theorem deduplicate_results_spec_witness :
    cexResult "B" 1 ∈ ([cexResult "A" 0, cexResult "B" 1] : List SearchResult) :=
  ((deduplicate_results_spec [cexResult "A" 0, cexResult "B" 1] 2).1
    (cexResult "B" 1) (by decide)).1

/-- C6 counterexample: a table whose two rows are separated by a blank line is
emitted as two table units, not one — the blank line terminates the open table
run (it is neither an image line nor a table-row line, so the `else` branch
closes the run). -/
theorem split_section_blank_line_cex :
    split_section_content "| a | b |\n\n| c | d |" =
      [{ content := "| a | b |", ctype := "table" },
       { content := "| c | d |", ctype := "table" }] ∧
    (split_section_content "| a | b |\n\n| c | d |").length ≠ 1 := by
  constructor
  · rfl
  · decide

/-- C6 (amended): any line that is neither an image line nor a table-row
line — in particular a blank line — terminates an open table run: the
accumulated rows are flushed as one table chunk, `in_table` is cleared, and a
blank line contributes nothing further. -/
theorem step_line_blank_ends_table (st : SplitState) (line : String)
    (htable : st.in_table = true) (hblank : pyStrip line = "") :
    (stepLine st line).in_table = false ∧
    (stepLine st line).current_chunk = [] ∧
    (stepLine st line).chunks = flushChunk st.chunks st.current_chunk "table" := by
  have himg : isImageLine line = false := by
    simp [isImageLine, hblank]
  have htab : isTableLine line = false := by
    simp [isTableLine, hblank]
  simp [stepLine, himg, htab, htable, hblank]

/-- Witness for C6's amended statement: a blank line hitting an open one-row
table run. -/
theorem step_line_blank_ends_table_witness :
    (stepLine ⟨[], ["| a | b |"], some "table", true⟩ "").in_table = false ∧
    (stepLine ⟨[], ["| a | b |"], some "table", true⟩ "").chunks =
      [{ content := "| a | b |", ctype := "table" }] := by
  have h := step_line_blank_ends_table ⟨[], ["| a | b |"], some "table", true⟩ "" rfl rfl
  exact ⟨h.1, by rw [h.2.2]; rfl⟩

/-- C7: when retrieval returns zero results, `query` returns exactly the fixed
no-information answer, an empty source list and an empty retrieved-chunk
list, and the generator path is never entered (flag `false`). -/
theorem rag_query_no_results (retrieve : String → ℕ → List SearchResult)
    (llm : String → Except String String) (question : String) (top_k : ℕ)
    (h : retrieve question top_k = []) :
    rag_query retrieve llm question top_k =
      ({ answer := no_info_answer, sources := [], retrieved_chunks := [] }, false) := by
  simp only [rag_query, h]

/-- Witness for C7 at a concrete empty retriever. -/
theorem rag_query_no_results_witness :
    rag_query (fun _ _ => []) (fun p => Except.ok p) "What is the uptime?" 5 =
      ({ answer := no_info_answer, sources := [], retrieved_chunks := [] }, false) :=
  rag_query_no_results (fun _ _ => []) (fun p => Except.ok p) "What is the uptime?" 5 rfl

/-- C8 counterexample: a unit below the minimum length is returned as a single
fragment whose metadata is the parent metadata only — it carries no chunk
index and no total chunk count, contradicting the claim that every fragment
(including short units) carries both. -/
theorem chunk_text_short_no_index_cex :
    chunk_text (fun s => [s]) "hi" [("source", "doc.pdf")] =
      [{ content := "hi"
         parentMeta := [("source", "doc.pdf")]
         child_chunk_index := none
         total_child_chunks := none }] ∧
    (chunk_text (fun s => [s]) "hi" [("source", "doc.pdf")]).map
      ChildChunk.child_chunk_index = [none] := by
  exact ⟨rfl, rfl⟩

/-- C8 (amended): fragments produced on the normal path (stripped length at
least 50) carry the parent metadata plus their chunk index and the total
chunk count; a unit below the threshold is returned as a single fragment with
the parent metadata unchanged and no index fields. -/
theorem chunk_text_metadata (splitter : String → List String)
    (text_content : String) (parent_metadata : List (String × String)) :
    ((pyStrip text_content).length < 50 →
      chunk_text splitter text_content parent_metadata =
        [{ content := pyStrip text_content
           parentMeta := parent_metadata
           child_chunk_index := none
           total_child_chunks := none }]) ∧
    (¬ (pyStrip text_content).length < 50 →
      ∀ c ∈ chunk_text splitter text_content parent_metadata,
        c.parentMeta = parent_metadata ∧
        ∃ i, i < (splitter text_content).length ∧ c.child_chunk_index = some i ∧
          c.total_child_chunks = some (splitter text_content).length) := by
  constructor
  · intro h
    simp [chunk_text, h]
  · intro h c hc
    rw [chunk_text, if_neg h] at hc
    obtain ⟨p, hp, hpc⟩ := List.mem_map.mp hc
    have hlt := List.fst_lt_of_mem_enum hp
    subst hpc
    exact ⟨rfl, p.1, hlt, rfl, rfl⟩

/-- Witness for C8's amended statement on both paths: a short unit and a
60-character unit cut in two by a concrete splitter. -/
theorem chunk_text_metadata_witness :
    chunk_text (fun s => [s]) "hi" [("source", "doc.pdf")] =
      [{ content := "hi"
         parentMeta := [("source", "doc.pdf")]
         child_chunk_index := none
         total_child_chunks := none }] ∧
    ((chunk_text (fun s => [s.take 30, s.drop 30])
        "aaaaaaaaaaaaaaaaaaaaaaaaaaaaaaaaaaaaaaaaaaaaaaaaaaaaaaaaaaaa"
        [("source", "doc.pdf")]).map ChildChunk.total_child_chunks = [some 2, some 2]) := by
  constructor
  · exact (chunk_text_metadata (fun s => [s]) "hi" [("source", "doc.pdf")]).1 (by decide)
  · rfl

/-- C9 counterexample: on the mixed batch `["hello", ""]` the blank text is
dropped, not zero-mapped — the result has length 1, not the input length 2,
for an embedder mapping each text to one vector. -/
theorem embed_documents_mixed_cex :
    embed_documents (fun ts => ts.map (fun _ => List.replicate 384 (1 : Score))) 384
        ["hello", ""] = [List.replicate 384 (1 : Score)] ∧
    (embed_documents (fun ts => ts.map (fun _ => List.replicate 384 (1 : Score))) 384
        ["hello", ""]).length ≠ (["hello", ""] : List String).length := by
  constructor
  · rfl
  · decide

/-- C9 (amended): `embed_documents` returns `[]` on an empty input; one zero
vector of the configured dimension per input text when every text is blank;
and otherwise the external model's embeddings of exactly the non-blank texts
(blank texts are dropped). -/
theorem embed_documents_spec (embedModel : List String → List (List Score))
    (dim : ℕ) (texts : List String) :
    (texts = [] → embed_documents embedModel dim texts = []) ∧
    (texts ≠ [] → texts.filter (fun t => pyStrip t ≠ "") = [] →
      embed_documents embedModel dim texts =
        List.replicate texts.length (List.replicate dim 0)) ∧
    (texts.filter (fun t => pyStrip t ≠ "") ≠ [] →
      embed_documents embedModel dim texts =
        embedModel (texts.filter (fun t => pyStrip t ≠ ""))) := by
  match texts with
  | [] =>
      refine ⟨?_, ?_, ?_⟩
      · intro _; rfl
      · intro h _; exact absurd rfl h
      · intro h; exact absurd rfl h
  | t :: ts =>
      refine ⟨?_, ?_, ?_⟩
      · intro h; exact absurd h (by simp)
      · intro _ hfil
        simp only [embed_documents]
        rw [hfil]
      · intro hfil
        simp only [embed_documents]
        match hm : (t :: ts).filter (fun t => pyStrip t ≠ "") with
        | [] => exact absurd hm hfil
        | v :: vs => rfl

/-- Witness for C9's amended statement on three concrete batches. -/
theorem embed_documents_spec_witness :
    embed_documents (fun ts => ts.map (fun _ => [(1 : Score)])) 3 [] = [] ∧
    embed_documents (fun ts => ts.map (fun _ => [(1 : Score)])) 3 ["", "  "] =
      [[0, 0, 0], [0, 0, 0]] ∧
    embed_documents (fun ts => ts.map (fun _ => [(1 : Score)])) 3 ["hello", ""] =
      [[(1 : Score)]] := by
  refine ⟨(embed_documents_spec _ 3 []).1 rfl, ?_, ?_⟩
  · have h := (embed_documents_spec (fun ts => ts.map (fun _ => [(1 : Score)])) 3
      ["", "  "]).2.1 (by decide) (by decide)
    rw [h]; rfl
  · have h := (embed_documents_spec (fun ts => ts.map (fun _ => [(1 : Score)])) 3
      ["hello", ""]).2.2 (by decide)
    rw [h]; rfl

/-- C10: for an image node whose content yields no extractable URL, the parent
record is inserted (it was inserted before URL extraction), no child fragment
is created, and processing returns normally — a persisted parent unit can own
zero child fragments. -/
theorem process_image_parent_no_url (splitter : String → List String)
    (summarize caption : String → List (String × String) → String)
    (embedF : String → List Score) (upload_timestamp : String)
    (st : DBState) (node : PipelineNode)
    (himg : node.ntype = "image") (hurl : extract_image_url node.content = "") :
    process_parent_node splitter summarize caption embedF upload_timestamp st node =
      { parents := st.parents ++
          [{ content := node.content
             metadata := node.metadata
             source_created_at := upload_timestamp }]
        children := st.children } := by
  simp [process_parent_node, himg, process_image_node, hurl]

/-- Witness for C10 at the image node `![a]()` (empty URL inside the
markdown image syntax). -/
theorem process_image_parent_no_url_witness :
    process_parent_node (fun s => [s]) (fun _ _ => "summary") (fun _ _ => "caption")
      (fun _ => []) "2025-01-01T00:00:00" ⟨[], []⟩
      ⟨"![a]()", [("source", "doc.pdf")], "image"⟩ =
      { parents := [{ content := "![a]()"
                      metadata := [("source", "doc.pdf")]
                      source_created_at := "2025-01-01T00:00:00" }]
        children := [] } := by
  have h := process_image_parent_no_url (fun s => [s]) (fun _ _ => "summary")
    (fun _ _ => "caption") (fun _ => []) "2025-01-01T00:00:00" ⟨[], []⟩
    ⟨"![a]()", [("source", "doc.pdf")], "image"⟩ rfl (by rfl)
  exact h

end RagSpec
